import Mathlib

/-!
# The WhatsApp relay of `src/main.go`

A shallow embedding of the three functions of `src/main.go` that carry behaviour of
their own: `handleReceivedMessage`, `sendMessage` and `sendMessageHandler`.

The functions are effectful Go code. Each is embedded as a pure function that returns
the ordered trace of the effects it performs (`Effect`): writes to standard output,
lines handed to the standard logger, invocations of the client's send operation and
HTTP responses written through the gin context.

Everything the program imports is a collaborator and is not defined in `src/`:

* the messaging client (`whatsmeow.Client`) is a record of what its two methods do, a send
  that returns late or never included, so the theorems quantify over every behaviour of the
  client;
* the string form of a `types.JID` is an argument of `handleReceivedMessage`;
* the JSON binding of gin (`ShouldBindJSON`) is embedded for the request struct of the
  source: the request body is the JSON value the decoder reads from it (`Body`), and the
  embedding follows the decoder member by member (names compared without regard to case,
  members in document order, the first type error kept) and then the
  `binding:"required"` validation of the two tags.
-/

set_option linter.dupNamespace false

namespace Whatsapp

/-! ## Collaborator types -/

/-- Go `error` value, observed through its `Error()` method. -/
structure GoError where
  Error : String
deriving DecidableEq, Repr

namespace types

/-- The `types.JID` struct of the client library. -/
structure JID where
  User : String
  RawAgent : Nat
  Device : Nat
  Integrator : Nat
  Server : String
deriving DecidableEq, Repr

/-- The constructor `types.NewJID(user, server)`: a JID with the two parts given and every
other field at its zero value. -/
def NewJID (user : String) (server : String) : JID :=
  { User := user, RawAgent := 0, Device := 0, Integrator := 0, Server := server }

/-- The type `types.MessageID`, a string. -/
abbrev MessageID := String

end types

namespace waProto

/-- The `ExtendedTextMessage` body; `Text` is an optional protobuf field. -/
structure ExtendedTextMessage where
  Text : Option String
deriving DecidableEq, Repr

/-- The `ImageMessage` body, standing for the body kinds the program does not read. -/
structure ImageMessage where
  Caption : Option String
deriving DecidableEq, Repr

/-- The protobuf `Message`: every body kind is an optional field. -/
structure Message where
  Conversation : Option String := none
  ExtendedTextMessage : Option ExtendedTextMessage := none
  ImageMessage : Option ImageMessage := none
deriving DecidableEq, Repr

/-- Generated getter `(*Message).GetConversation()`: the field when the receiver and the
field are both non-nil, the empty string otherwise. -/
def Message.GetConversation : Option Message → String
  | some x =>
    match x.Conversation with
    | some s => s
    | none => ""
  | none => ""

/-- Generated getter `(*Message).GetExtendedTextMessage()`: the field when the receiver is
non-nil, nil otherwise. -/
def Message.GetExtendedTextMessage : Option Message → Option waProto.ExtendedTextMessage
  | some x => x.ExtendedTextMessage
  | none => none

/-- Generated getter `(*ExtendedTextMessage).GetText()`. -/
def ExtendedTextMessage.GetText : Option ExtendedTextMessage → String
  | some x =>
    match x.Text with
    | some s => s
    | none => ""
  | none => ""

end waProto

/-- The helper `proto.String(v)`: a pointer to a fresh copy of `v`. -/
def proto.String (v : String) : Option String := some v

namespace events

/-- The part of `types.MessageInfo` the program reads. -/
structure MessageInfo where
  Sender : types.JID
deriving DecidableEq, Repr

/-- The `events.Message` event: `Message` is a pointer and may be nil. -/
structure Message where
  Info : MessageInfo
  Message : Option waProto.Message
deriving DecidableEq, Repr

end events

namespace time

/-- The type `time.Duration`, a count of nanoseconds. -/
abbrev Duration := Int

/-- The constant `time.Second`. -/
def Second : Duration := 1000000000

end time

namespace context

/-- The contexts the program builds: the background context and contexts derived from a
parent with a timeout. -/
inductive Context where
  | Background : Context
  | WithTimeout (parent : Context) (timeout : time.Duration) : Context
deriving DecidableEq, Repr

end context

/-- How a blocking call to a collaborator ends: it returns a value after the time `elapsed`,
or it never returns. -/
inductive Completion (α : Type) where
  | returns (elapsed : time.Duration) (value : α) : Completion α
  | blocks : Completion α
deriving DecidableEq, Repr

namespace whatsmeow

/-- The part of `whatsmeow.SendResponse` that identifies the sent message. -/
structure SendResponse where
  Timestamp : Nat
  ID : types.MessageID
deriving DecidableEq, Repr

/-- The messaging client as the program uses it: `GenerateMessageID` is the id the client
hands out when asked, `SendMessage` tells how a send with the given arguments ends: it
returns, after some time, a response and an error (nil is `none`), or it never returns. -/
structure Client where
  GenerateMessageID : types.MessageID
  SendMessage : context.Context → types.JID → waProto.Message →
    Completion (SendResponse × Option GoError)

end whatsmeow

namespace http

/-- The constant `http.StatusOK`. -/
def StatusOK : Nat := 200

/-- The constant `http.StatusBadRequest`. -/
def StatusBadRequest : Nat := 400

/-- The constant `http.StatusInternalServerError`. -/
def StatusInternalServerError : Nat := 500

end http

namespace gin

/-- The map `gin.H`; every map the program builds has one key with a string value. -/
abbrev H := List (String × String)

end gin

/-! ## Effects -/

/-- One observable action of the program. -/
inductive Effect where
  /-- Text written to standard output by `fmt.Printf` or `fmt.Println`. -/
  | stdout (text : String) : Effect
  /-- One entry handed to the standard logger (`log.Printf`, `log.Println`), without the
  header the logger puts in front of it. -/
  | log (text : String) : Effect
  /-- One invocation `client.SendMessage(ctx, recipient, message)`. -/
  | send (ctx : context.Context) (recipient : types.JID) (message : waProto.Message) : Effect
  /-- The response `c.JSON(code, obj)`. -/
  | respond (code : Nat) (obj : gin.H) : Effect
deriving DecidableEq, Repr

/-- The send invocations of a trace, in order. -/
def sends : List Effect → List (context.Context × types.JID × waProto.Message)
  | [] => []
  | Effect.send ctx recipient message :: rest => (ctx, recipient, message) :: sends rest
  | _ :: rest => sends rest

/-- The HTTP responses of a trace, in order. -/
def responses : List Effect → List (Nat × gin.H)
  | [] => []
  | Effect.respond code obj :: rest => (code, obj) :: responses rest
  | _ :: rest => responses rest

/-- The writes to standard output of a trace, in order. -/
def stdouts : List Effect → List String
  | [] => []
  | Effect.stdout text :: rest => text :: stdouts rest
  | _ :: rest => stdouts rest

/-- The logger entries of a trace, in order. -/
def logs : List Effect → List String
  | [] => []
  | Effect.log text :: rest => text :: logs rest
  | _ :: rest => logs rest

/-! ## `handleReceivedMessage` (main.go, lines 90-101) -/

/-- The function `handleReceivedMessage`. `jidString` is the method `JID.String()` of the
client library. -/
def handleReceivedMessage (jidString : types.JID → String) (message : events.Message) :
    List Effect :=
  let sender := jidString message.Info.Sender
  let msg := message.Message
  if waProto.Message.GetConversation msg ≠ "" then
    [Effect.stdout ("Received message from " ++ sender ++ ": " ++
      waProto.Message.GetConversation msg ++ "\n")]
  else if waProto.Message.GetExtendedTextMessage msg ≠ none then
    [Effect.stdout ("Received extended text message from " ++ sender ++ ": " ++
      waProto.ExtendedTextMessage.GetText (waProto.Message.GetExtendedTextMessage msg) ++ "\n")]
  else
    [Effect.stdout ("Received a message from " ++ sender ++
      ", but could not determine its type\n")]

/-! ## `sendMessage` (main.go, lines 104-119) -/

/-- The function `sendMessage`: the effects it performs and how it completes. The call
`client.SendMessage` is an ordinary blocking call: `sendMessage` goes on when the call returns,
and returns the error of the call (nil is `none`). -/
def sendMessage (client : whatsmeow.Client) (jid : String) (text : String) :
    List Effect × Completion (Option GoError) :=
  let targetJID := types.NewJID jid "s.whatsapp.net"
  let msgID := client.GenerateMessageID
  let ctx := context.Context.WithTimeout context.Context.Background (60 * time.Second)
  let message : waProto.Message := { Conversation := proto.String text }
  match client.SendMessage ctx targetJID message with
  | Completion.blocks => ([Effect.send ctx targetJID message], Completion.blocks)
  | Completion.returns elapsed (_, some err) =>
    ([Effect.send ctx targetJID message, Effect.log ("Failed to send message: " ++ err.Error)],
      Completion.returns elapsed (some err))
  | Completion.returns elapsed (_, none) =>
    ([Effect.send ctx targetJID message, Effect.stdout ("Message sent, ID: " ++ msgID ++ "\n")],
      Completion.returns elapsed none)

/-! ## The JSON binding of the request (main.go, lines 123-127) -/

/-- The request struct of `sendMessageHandler`:
`JID string` tagged `json:"jid" binding:"required"` and
`Text string` tagged `json:"text" binding:"required"`. -/
structure Request where
  JID : String
  Text : String
deriving DecidableEq, Repr

/-- A JSON value; the members of an object are kept in the order of the document, repeated
names included. -/
inductive JsonValue where
  | null : JsonValue
  | bool (b : Bool) : JsonValue
  | number (literal : String) : JsonValue
  | string (s : String) : JsonValue
  | array (items : List JsonValue) : JsonValue
  | object (members : List (String × JsonValue)) : JsonValue

/-- The name the decoder gives the value in the type error it reports. -/
def JsonValue.Kind : JsonValue → String
  | JsonValue.null => "null"
  | JsonValue.bool _ => "bool"
  | JsonValue.number _ => "number"
  | JsonValue.string _ => "string"
  | JsonValue.array _ => "array"
  | JsonValue.object _ => "object"

/-- The body of a `POST /send` request, as the streaming JSON decoder behind
`c.ShouldBindJSON` reads it: the decoder reads one JSON value from the start of the body and
does not look at what follows it.

* `syntaxError err`: the decoder fails before it has read one JSON value (an empty body
  included); `err` is the error it reports.
* `value v trailing`: the body starts with the JSON value `v`; `trailing` tells whether
  anything other than white space follows `v`, in which case the body as a whole is not
  valid JSON. -/
inductive Body where
  | syntaxError (err : GoError) : Body
  | value (v : JsonValue) (trailing : Bool) : Body

/-- The text of the type error the decoder reports for a member of the request struct. -/
def fieldTypeError (kind : String) (field : String) : GoError :=
  ⟨"json: cannot unmarshal " ++ kind ++ " into Go struct field ." ++ field ++ " of type string"⟩

/-- The Go name of the type of the request struct, as type errors print it. -/
def requestTypeName : String :=
  "struct \x7b JID string \"json:\\\"jid\\\" binding:\\\"required\\\"\"; " ++
    "Text string \"json:\\\"text\\\" binding:\\\"required\\\"\" \x7d"

/-- The text of the type error the decoder reports for a top-level value that is not an
object. -/
def valueTypeError (kind : String) : GoError :=
  ⟨"json: cannot unmarshal " ++ kind ++ " into Go value of type " ++ requestTypeName⟩

/-- The case folding under which the decoder compares a member name with the name of a
struct field. For the two names `jid` and `text` it is the folding of the ASCII letters. -/
def foldName (s : String) : List Char :=
  s.data.map Char.toLower

/-- Whether the decoder binds a member named `key` to the struct field whose JSON name is
`name`: the names are equal up to the case of their letters. -/
def matchesField (key : String) (name : String) : Bool :=
  foldName key == foldName name

/-- Storing a JSON value into a Go string field that holds `cur`: `null` leaves the field as
it is, a JSON string is stored, any other value is a type error and leaves the field as it
is. -/
def storeString (name : String) (cur : String) : JsonValue → String × Option GoError
  | JsonValue.null => (cur, none)
  | JsonValue.string s => (s, none)
  | v => (cur, some (fieldTypeError v.Kind name))

/-- The decoder keeps the first type error it meets and goes on decoding. -/
def saveError (saved : Option GoError) (err : Option GoError) : Option GoError :=
  match saved with
  | some e => some e
  | none => err

/-- One member of the top-level object: it is stored into the field it is bound to, if any;
a member bound to no field is skipped. The state is the request struct and the saved
error. -/
def decodeMember (state : Request × Option GoError) (member : String × JsonValue) :
    Request × Option GoError :=
  if matchesField member.1 "jid" then
    let stored := storeString "jid" state.1.JID member.2
    ({ JID := stored.1, Text := state.1.Text }, saveError state.2 stored.2)
  else if matchesField member.1 "text" then
    let stored := storeString "text" state.1.Text member.2
    ({ JID := state.1.JID, Text := stored.1 }, saveError state.2 stored.2)
  else state

/-- The call `decoder.Decode(&request)` on the zero-valued request struct: the struct after
the call and the error returned. The members of an object are decoded in the order of the
document; `null` at the top level leaves the struct as it is; any other top-level value is a
type error. What follows the first value is not read. -/
def Decode : Body → Request × Option GoError
  | Body.syntaxError err => ({ JID := "", Text := "" }, some err)
  | Body.value (JsonValue.object members) _ =>
    members.foldl decodeMember ({ JID := "", Text := "" }, none)
  | Body.value JsonValue.null _ => ({ JID := "", Text := "" }, none)
  | Body.value v _ => ({ JID := "", Text := "" }, some (valueTypeError v.Kind))

/-- The text of one failed `required` validation. -/
def requiredError (field : String) : String :=
  "Key: '" ++ field ++ "' Error:Field validation for '" ++ field ++
    "' failed on the 'required' tag"

/-- The validation of the `binding:"required"` tags: a string field fails when it holds the
zero value, the empty string. -/
def validate (request : Request) : Option GoError :=
  let failed := (if request.JID = "" then ["JID"] else []) ++
    (if request.Text = "" then ["Text"] else [])
  if failed = [] then none
  else some ⟨"\n".intercalate (failed.map requiredError)⟩

/-- The call `c.ShouldBindJSON(&request)`: decode, and when decoding succeeds validate. -/
def ShouldBindJSON (body : Body) : Except GoError Request :=
  match Decode body with
  | (_, some err) => Except.error err
  | (request, none) =>
    match validate request with
    | some err => Except.error err
    | none => Except.ok request

/-! ## `sendMessageHandler` (main.go, lines 122-143) -/

/-- The function `sendMessageHandler`, for the global `client` and the body of the request.
When the send never returns the handler never gets past the call of `sendMessage`. -/
def sendMessageHandler (client : whatsmeow.Client) (body : Body) : List Effect :=
  match ShouldBindJSON body with
  | Except.error err =>
    [Effect.log ("Failed to bind JSON: " ++ err.Error),
      Effect.respond http.StatusBadRequest [("error", err.Error)]]
  | Except.ok request =>
    let sent := sendMessage client request.JID request.Text
    [Effect.log ("Received request to send message: \x7b" ++ request.JID ++ " " ++
        request.Text ++ "\x7d")] ++
      sent.1 ++
      match sent.2 with
      | Completion.returns _ (some err) =>
        [Effect.log ("Failed to send message: " ++ err.Error),
          Effect.respond http.StatusInternalServerError [("error", err.Error)]]
      | Completion.returns _ none =>
        [Effect.log "Message sent successfully",
          Effect.respond http.StatusOK [("status", "Message sent")]]
      | Completion.blocks => []

/-! ## Vocabulary of the specification -/

/-- The values of the members that the decoder binds to the field `name`, in the order of
the document. -/
def valuesFor (name : String) : List (String × JsonValue) → List JsonValue
  | [] => []
  | member :: rest =>
    if matchesField member.1 name then member.2 :: valuesFor name rest
    else valuesFor name rest

/-- The last JSON string of a list of values, if there is one. -/
def lastString : List JsonValue → Option String
  | [] => none
  | v :: rest =>
    match lastString rest with
    | some s => some s
    | none =>
      match v with
      | JsonValue.string s => some s
      | _ => none

/-- Whether a JSON value is a string or `null`. -/
def JsonValue.isStringOrNull : JsonValue → Bool
  | JsonValue.string _ => true
  | JsonValue.null => true
  | _ => false

/-- The field `name` of a JSON object is missing, is the empty string or is malformed:
no member gives it a string (there is no member for it, or only `null`), or the string it
ends up with is empty, or a member for it is neither a string nor `null`. -/
def FieldRejected (name : String) (members : List (String × JsonValue)) : Prop :=
  lastString (valuesFor name members) = none ∨
    lastString (valuesFor name members) = some "" ∨
    ∃ v ∈ valuesFor name members, v.isStringOrNull = false

instance (name : String) (members : List (String × JsonValue)) :
    Decidable (FieldRejected name members) := by
  unfold FieldRejected
  exact inferInstance

/-- A request body that the decoder cannot read, whose first JSON value is not an object, or
whose object has a rejected `jid` or a rejected `text`. -/
def Body.Rejected : Body → Prop
  | Body.syntaxError _ => True
  | Body.value (JsonValue.object members) _ =>
    FieldRejected "jid" members ∨ FieldRejected "text" members
  | Body.value _ _ => True

instance (body : Body) : Decidable body.Rejected :=
  match body with
  | Body.syntaxError _ => isTrue trivial
  | Body.value (JsonValue.object members) _ =>
    inferInstanceAs (Decidable (FieldRejected "jid" members ∨ FieldRejected "text" members))
  | Body.value JsonValue.null _ => isTrue trivial
  | Body.value (JsonValue.bool _) _ => isTrue trivial
  | Body.value (JsonValue.number _) _ => isTrue trivial
  | Body.value (JsonValue.string _) _ => isTrue trivial
  | Body.value (JsonValue.array _) _ => isTrue trivial

/-- The body as a whole is valid JSON: one JSON value and nothing but white space after
it. -/
def Body.ValidJSON : Body → Bool
  | Body.value _ false => true
  | _ => false

/-- The client of a test: it hands out the id `msgID`, and every send returns after
`elapsed` with the response `resp` and the error `err`. -/
def stubClientAfter (elapsed : time.Duration) (msgID : types.MessageID)
    (resp : whatsmeow.SendResponse) (err : Option GoError) : whatsmeow.Client :=
  { GenerateMessageID := msgID,
    SendMessage := fun _ _ _ => Completion.returns elapsed (resp, err) }

/-- The client of a test whose sends return after one second. -/
def stubClient (msgID : types.MessageID) (resp : whatsmeow.SendResponse)
    (err : Option GoError) : whatsmeow.Client :=
  stubClientAfter time.Second msgID resp err

/-- The client of a test whose sends never complete. -/
def blockingClient (msgID : types.MessageID) : whatsmeow.Client :=
  { GenerateMessageID := msgID, SendMessage := fun _ _ _ => Completion.blocks }

/-- A string form for JIDs used in examples: `user@server`. -/
def userAtServer (jid : types.JID) : String :=
  jid.User ++ "@" ++ jid.Server

/-- The send invocation that `sendMessage client jid text` makes. -/
def sendCall (jid : String) (text : String) :
    context.Context × types.JID × waProto.Message :=
  (context.Context.WithTimeout context.Context.Background 60000000000,
    types.NewJID jid "s.whatsapp.net",
    { Conversation := some text, ExtendedTextMessage := none, ImageMessage := none })

/-- The completion of the send that `sendMessage client jid text` makes. -/
def sendOutcome (client : whatsmeow.Client) (jid : String) (text : String) :
    Completion (whatsmeow.SendResponse × Option GoError) :=
  client.SendMessage (sendCall jid text).1 (sendCall jid text).2.1 (sendCall jid text).2.2

/-- The line the relay writes for a plain-text body. -/
def plainTextLine (sender : String) (text : String) : String :=
  "Received message from " ++ sender ++ ": " ++ text ++ "\n"

/-- The line the relay writes for an extended text body. -/
def extendedTextLine (sender : String) (text : String) : String :=
  "Received extended text message from " ++ sender ++ ": " ++ text ++ "\n"

/-- The line the relay writes for a body of neither kind. -/
def undeterminedLine (sender : String) : String :=
  "Received a message from " ++ sender ++ ", but could not determine its type\n"

/-- The client `client` handing out the message id `msgID` instead of its own. -/
def withGeneratedID (client : whatsmeow.Client) (msgID : types.MessageID) : whatsmeow.Client :=
  { GenerateMessageID := msgID, SendMessage := client.SendMessage }

/-- The client `client` with the response of every send that returns replaced through `f`;
the completion and the error of the send are kept. -/
def withResponse (client : whatsmeow.Client)
    (f : whatsmeow.SendResponse → whatsmeow.SendResponse) : whatsmeow.Client :=
  { GenerateMessageID := client.GenerateMessageID,
    SendMessage := fun ctx recipient message =>
      match client.SendMessage ctx recipient message with
      | Completion.returns elapsed result => Completion.returns elapsed (f result.1, result.2)
      | Completion.blocks => Completion.blocks }

/-- A trace without its writes to standard output. -/
def withoutStdout : List Effect → List Effect
  | [] => []
  | Effect.stdout _ :: rest => withoutStdout rest
  | e :: rest => e :: withoutStdout rest


/-! ## Binding lemmas -/

theorem matchesField_jid_not_text (key : String) (h : matchesField key "jid" = true) :
    matchesField key "text" = false := by
  unfold matchesField at h ⊢
  rw [beq_iff_eq] at h
  rw [h]
  decide

theorem storeString_fst (name : String) (cur : String) (v : JsonValue) :
    (storeString name cur v).1 =
      match v with
      | JsonValue.string s => s
      | _ => cur := by
  cases v <;> rfl

theorem storeString_snd (name : String) (cur : String) (v : JsonValue) :
    (storeString name cur v).2 = none ↔ v.isStringOrNull = true := by
  cases v <;> simp [storeString, JsonValue.isStringOrNull]

theorem saveError_eq_none (saved : Option GoError) (err : Option GoError) :
    saveError saved err = none ↔ saved = none ∧ err = none := by
  cases saved <;> simp [saveError]

theorem valuesFor_cons (name : String) (member : String × JsonValue)
    (rest : List (String × JsonValue)) :
    valuesFor name (member :: rest) =
      if matchesField member.1 name then member.2 :: valuesFor name rest
      else valuesFor name rest :=
  rfl

theorem lastString_cons (v : JsonValue) (rest : List JsonValue) :
    lastString (v :: rest) =
      match lastString rest with
      | some s => some s
      | none =>
        match v with
        | JsonValue.string s => some s
        | _ => none :=
  rfl

theorem foldl_decodeMember_JID (members : List (String × JsonValue))
    (state : Request × Option GoError) :
    (members.foldl decodeMember state).1.JID =
      (lastString (valuesFor "jid" members)).getD state.1.JID := by
  induction members generalizing state with
  | nil => rfl
  | cons member rest ih =>
    rw [List.foldl_cons, ih]
    rw [valuesFor_cons]
    unfold decodeMember
    by_cases hj : matchesField member.1 "jid" = true
    · simp only [hj, if_true, lastString_cons, storeString_fst]
      cases lastString (valuesFor "jid" rest) with
      | some s => rfl
      | none => cases member.2 <;> rfl
    · simp only [hj, if_false, Bool.false_eq_true]
      by_cases ht : matchesField member.1 "text" = true
      · simp only [ht, if_true]
      · simp only [ht, if_false, Bool.false_eq_true]

theorem foldl_decodeMember_Text (members : List (String × JsonValue))
    (state : Request × Option GoError) :
    (members.foldl decodeMember state).1.Text =
      (lastString (valuesFor "text" members)).getD state.1.Text := by
  induction members generalizing state with
  | nil => rfl
  | cons member rest ih =>
    rw [List.foldl_cons, ih, valuesFor_cons]
    unfold decodeMember
    by_cases hj : matchesField member.1 "jid" = true
    · simp only [hj, if_true, matchesField_jid_not_text member.1 hj, if_false,
        Bool.false_eq_true]
    · simp only [hj, if_false, Bool.false_eq_true]
      by_cases ht : matchesField member.1 "text" = true
      · simp only [ht, if_true, lastString_cons, storeString_fst]
        cases lastString (valuesFor "text" rest) with
        | some s => rfl
        | none => cases member.2 <;> rfl
      · simp only [ht, if_false, Bool.false_eq_true]

theorem foldl_decodeMember_error (members : List (String × JsonValue))
    (state : Request × Option GoError) :
    (members.foldl decodeMember state).2 = none ↔
      state.2 = none ∧ (∀ v ∈ valuesFor "jid" members, v.isStringOrNull = true) ∧
        (∀ v ∈ valuesFor "text" members, v.isStringOrNull = true) := by
  induction members generalizing state with
  | nil => simp [valuesFor]
  | cons member rest ih =>
    rw [List.foldl_cons, ih, valuesFor_cons, valuesFor_cons]
    unfold decodeMember
    by_cases hj : matchesField member.1 "jid" = true
    · simp only [hj, if_true, matchesField_jid_not_text member.1 hj, if_false,
        Bool.false_eq_true, saveError_eq_none, storeString_snd, List.forall_mem_cons]
      tauto
    · simp only [hj, if_false, Bool.false_eq_true]
      by_cases ht : matchesField member.1 "text" = true
      · simp only [ht, if_true, saveError_eq_none, storeString_snd, List.forall_mem_cons]
        tauto
      · simp only [ht, if_false, Bool.false_eq_true]

theorem validate_eq_none (request : Request) :
    validate request = none ↔ request.JID ≠ "" ∧ request.Text ≠ "" := by
  unfold validate
  by_cases hj : request.JID = "" <;> by_cases ht : request.Text = "" <;> simp [hj, ht]

theorem ShouldBindJSON_object (members : List (String × JsonValue)) (trailing : Bool) :
    (FieldRejected "jid" members ∨ FieldRejected "text" members →
        ∃ err, ShouldBindJSON (Body.value (JsonValue.object members) trailing) =
          Except.error err) ∧
      (¬ (FieldRejected "jid" members ∨ FieldRejected "text" members) →
        ∃ jid text : String, jid ≠ "" ∧ text ≠ "" ∧
          lastString (valuesFor "jid" members) = some jid ∧
          lastString (valuesFor "text" members) = some text ∧
          ShouldBindJSON (Body.value (JsonValue.object members) trailing) =
            Except.ok { JID := jid, Text := text }) := by
  have hJ := foldl_decodeMember_JID members ({ JID := "", Text := "" }, none)
  have hT := foldl_decodeMember_Text members ({ JID := "", Text := "" }, none)
  have hE := foldl_decodeMember_error members ({ JID := "", Text := "" }, none)
  have hD : Decode (Body.value (JsonValue.object members) trailing) =
      members.foldl decodeMember ({ JID := "", Text := "" }, none) := rfl
  unfold ShouldBindJSON
  rw [hD]
  generalize members.foldl decodeMember ({ JID := "", Text := "" }, none) = result at hJ hT hE
  obtain ⟨request, saved⟩ := result
  simp only at hJ hT hE
  constructor
  · intro h
    cases saved with
    | some err => exact ⟨err, rfl⟩
    | none =>
      have hok := hE.mp rfl
      have hv : validate request ≠ none := by
        rw [Ne, validate_eq_none, hJ, hT]
        rintro ⟨h1, h2⟩
        rcases h with h | h
        · rcases h with h | h | ⟨v, hv, hbad⟩
          · rw [h] at h1; exact h1 rfl
          · rw [h] at h1; exact h1 rfl
          · rw [hok.2.1 v hv] at hbad; cases hbad
        · rcases h with h | h | ⟨v, hv, hbad⟩
          · rw [h] at h2; exact h2 rfl
          · rw [h] at h2; exact h2 rfl
          · rw [hok.2.2 v hv] at hbad; cases hbad
      cases hval : validate request with
      | some err => exact ⟨err, by simp only [hval]⟩
      | none => exact absurd hval hv
  · intro h
    simp only [FieldRejected, not_or, not_exists, not_and, Bool.not_eq_false] at h
    obtain ⟨⟨hj1, hj2, hj3⟩, ht1, ht2, ht3⟩ := h
    have hsaved : saved = none := hE.mpr ⟨trivial, hj3, ht3⟩
    subst hsaved
    obtain ⟨jid, hjid⟩ := Option.ne_none_iff_exists'.mp hj1
    obtain ⟨text, htext⟩ := Option.ne_none_iff_exists'.mp ht1
    have hjne : jid ≠ "" := by
      rintro rfl; exact hj2 hjid
    have htne : text ≠ "" := by
      rintro rfl; exact ht2 htext
    rw [hjid] at hJ
    rw [htext] at hT
    have hreq : request = { JID := jid, Text := text } := by
      cases request
      simp only [Option.getD_some] at hJ hT
      simp [hJ, hT]
    subst hreq
    have hval : validate { JID := jid, Text := text } = none :=
      (validate_eq_none _).mpr ⟨hjne, htne⟩
    exact ⟨jid, text, hjne, htne, hjid, htext, by simp only [hval]⟩

theorem ShouldBindJSON_rejected (body : Body) (h : body.Rejected) :
    ∃ err, ShouldBindJSON body = Except.error err := by
  cases body with
  | syntaxError err => exact ⟨err, rfl⟩
  | value v trailing =>
    cases v with
    | object members => exact (ShouldBindJSON_object members trailing).1 h
    | _ => exact ⟨_, rfl⟩

/-- Every body is either rejected or bound to a request with two non-empty strings: the
bodies of C1 are exactly the bodies that are not sent. -/
theorem Body.rejected_or_bound (body : Body) :
    body.Rejected ∨
      ∃ jid text : String, jid ≠ "" ∧ text ≠ "" ∧
        ShouldBindJSON body = Except.ok { JID := jid, Text := text } := by
  by_cases h : body.Rejected
  · exact Or.inl h
  · right
    cases body with
    | syntaxError err => exact absurd trivial h
    | value v trailing =>
      cases v with
      | object members =>
        obtain ⟨jid, text, hj, ht, _, _, hb⟩ := (ShouldBindJSON_object members trailing).2 h
        exact ⟨jid, text, hj, ht, hb⟩
      | _ => exact absurd trivial h

/-! ## Trace lemmas -/

theorem sendMessage_eq (client : whatsmeow.Client) (jid : String) (text : String) :
    sendMessage client jid text =
      match sendOutcome client jid text with
      | Completion.blocks =>
        ([Effect.send (sendCall jid text).1 (sendCall jid text).2.1 (sendCall jid text).2.2],
          Completion.blocks)
      | Completion.returns elapsed (_, some err) =>
        ([Effect.send (sendCall jid text).1 (sendCall jid text).2.1 (sendCall jid text).2.2,
          Effect.log ("Failed to send message: " ++ err.Error)],
          Completion.returns elapsed (some err))
      | Completion.returns elapsed (_, none) =>
        ([Effect.send (sendCall jid text).1 (sendCall jid text).2.1 (sendCall jid text).2.2,
          Effect.stdout ("Message sent, ID: " ++ client.GenerateMessageID ++ "\n")],
          Completion.returns elapsed none) := by
  have e : (60 * time.Second : time.Duration) = 60000000000 := by decide
  simp only [sendMessage, sendOutcome, sendCall, proto.String, e]

theorem sendMessage_effects (client : whatsmeow.Client) (jid : String) (text : String) :
    sends (sendMessage client jid text).1 = [sendCall jid text] ∧
      responses (sendMessage client jid text).1 = [] := by
  rw [sendMessage_eq]
  cases sendOutcome client jid text with
  | blocks => simp [sends, responses]
  | returns elapsed result =>
    obtain ⟨resp, err⟩ := result
    cases err <;> simp [sends, responses]

theorem sendMessage_completion (client : whatsmeow.Client) (jid : String) (text : String) :
    (sendMessage client jid text).2 =
      match sendOutcome client jid text with
      | Completion.returns elapsed result => Completion.returns elapsed result.2
      | Completion.blocks => Completion.blocks := by
  rw [sendMessage_eq]
  cases sendOutcome client jid text with
  | blocks => rfl
  | returns elapsed result =>
    obtain ⟨resp, err⟩ := result
    cases err <;> rfl

theorem char_of_append_eq (a b x y : String) (i : Nat) (ha : i < a.length)
    (hb : i < b.length) (h : a ++ x = b ++ y) : a.data[i]? = b.data[i]? := by
  have hd := congrArg String.data h
  simp only [String.data_append] at hd
  have h1 : (a.data ++ x.data)[i]? = (b.data ++ y.data)[i]? := by rw [hd]
  rw [List.getElem?_append_left ha, List.getElem?_append_left hb] at h1
  exact h1

theorem plainTextLine_ne_extendedTextLine (s t s2 t2 : String) :
    plainTextLine s t ≠ extendedTextLine s2 t2 := by
  intro h
  simp only [plainTextLine, extendedTextLine, String.append_assoc] at h
  have h9 := char_of_append_eq _ _ _ _ 9 (by decide) (by decide) h
  revert h9
  decide

theorem plainTextLine_ne_undeterminedLine (s t s2 : String) :
    plainTextLine s t ≠ undeterminedLine s2 := by
  intro h
  simp only [plainTextLine, undeterminedLine, String.append_assoc] at h
  have h9 := char_of_append_eq _ _ _ _ 9 (by decide) (by decide) h
  revert h9
  decide

theorem extendedTextLine_ne_undeterminedLine (s t s2 : String) :
    extendedTextLine s t ≠ undeterminedLine s2 := by
  intro h
  simp only [extendedTextLine, undeterminedLine, String.append_assoc] at h
  have h9 := char_of_append_eq _ _ _ _ 9 (by decide) (by decide) h
  revert h9
  decide

theorem handleReceivedMessage_eq (jidString : types.JID → String) (message : events.Message) :
    handleReceivedMessage jidString message =
      [Effect.stdout
        (if waProto.Message.GetConversation message.Message ≠ "" then
          plainTextLine (jidString message.Info.Sender)
            (waProto.Message.GetConversation message.Message)
        else if waProto.Message.GetExtendedTextMessage message.Message ≠ none then
          extendedTextLine (jidString message.Info.Sender)
            (waProto.ExtendedTextMessage.GetText
              (waProto.Message.GetExtendedTextMessage message.Message))
        else undeterminedLine (jidString message.Info.Sender))] := by
  unfold handleReceivedMessage plainTextLine extendedTextLine undeterminedLine
  simp only
  split
  · rfl
  · split <;> rfl

/-! ## The HTTP handler: claims C1 to C4 -/

/-- C1, as the claim states it, fails. The body `{"jid":"15551234567","text":"hi"} xyz` is
not valid JSON, and the body `{"JID":"15551234567","text":"hi"}` has no member named `jid`;
for both the handler sends the message and answers 200. -/
theorem sendMessageHandler_accepts_invalid_json :
    (Body.value (JsonValue.object
        [("jid", JsonValue.string "15551234567"), ("text", JsonValue.string "hi")])
      true).ValidJSON = false ∧
      responses (sendMessageHandler
        (stubClient "3EB0A1" { Timestamp := 0, ID := "XYZ" } none)
        (Body.value (JsonValue.object
          [("jid", JsonValue.string "15551234567"), ("text", JsonValue.string "hi")]) true)) =
        [(200, [("status", "Message sent")])] ∧
      sends (sendMessageHandler
        (stubClient "3EB0A1" { Timestamp := 0, ID := "XYZ" } none)
        (Body.value (JsonValue.object
          [("jid", JsonValue.string "15551234567"), ("text", JsonValue.string "hi")]) true)) =
        [(context.Context.WithTimeout context.Context.Background 60000000000,
          types.NewJID "15551234567" "s.whatsapp.net",
          { Conversation := some "hi", ExtendedTextMessage := none, ImageMessage := none })] ∧
      (∀ name ∈ ["JID", "text"], name ≠ "jid") ∧
      responses (sendMessageHandler
        (stubClient "3EB0A1" { Timestamp := 0, ID := "XYZ" } none)
        (Body.value (JsonValue.object
          [("JID", JsonValue.string "15551234567"), ("text", JsonValue.string "hi")]) false)) =
        [(200, [("status", "Message sent")])] ∧
      sends (sendMessageHandler
        (stubClient "3EB0A1" { Timestamp := 0, ID := "XYZ" } none)
        (Body.value (JsonValue.object
          [("JID", JsonValue.string "15551234567"), ("text", JsonValue.string "hi")]) false)) =
        [(context.Context.WithTimeout context.Context.Background 60000000000,
          types.NewJID "15551234567" "s.whatsapp.net",
          { Conversation := some "hi", ExtendedTextMessage := none, ImageMessage := none })] := by
  decide

/-- C1 (amended): for every request body from which the decoder cannot read a JSON value, or
whose first JSON value is not an object, or is an object in which `jid` or `text` is missing,
is the empty string or is not a string, `sendMessageHandler` responds exactly once, with
status 400 and a JSON object `{"error": description}`, and invokes the send operation zero
times. The members of the object are taken as the decoder binds them: names are compared
without regard to case, a later member of a field replaces an earlier one and `null` counts
as no value; what follows the first JSON value is not examined. -/
theorem sendMessageHandler_bad_request (client : whatsmeow.Client) (body : Body)
    (h : body.Rejected) :
    (∃ description : String,
        responses (sendMessageHandler client body) = [(400, [("error", description)])]) ∧
      sends (sendMessageHandler client body) = [] := by
  obtain ⟨err, herr⟩ := ShouldBindJSON_rejected body h
  unfold sendMessageHandler
  rw [herr]
  exact ⟨⟨err.Error, rfl⟩, rfl⟩

/-- Witness for C1 (amended): the body `{"text": "hi"}`, which has no `jid`, is answered with
400 and nothing is sent. -/
theorem sendMessageHandler_bad_request_witness :
    (Body.value (JsonValue.object [("text", JsonValue.string "hi")]) false).Rejected ∧
      ((∃ description : String,
          responses (sendMessageHandler
            (stubClient "3EB0A1" { Timestamp := 0, ID := "XYZ" } none)
            (Body.value (JsonValue.object [("text", JsonValue.string "hi")]) false)) =
            [(400, [("error", description)])]) ∧
        sends (sendMessageHandler
          (stubClient "3EB0A1" { Timestamp := 0, ID := "XYZ" } none)
          (Body.value (JsonValue.object [("text", JsonValue.string "hi")]) false)) = []) :=
  ⟨by decide, sendMessageHandler_bad_request _ _ (by decide)⟩

/-- C5, as the claim states it, fails. With a client whose send never completes,
`sendMessage` never returns; with a client whose send reports success after 61 seconds,
`sendMessage` returns nil. In neither case does it return a timeout error, although the send
did not complete within 60 seconds. -/
theorem sendMessage_returns_no_timeout_error :
    (sendMessage (blockingClient "3EB0A1") "15551234567" "hi").2 = Completion.blocks ∧
      (60 * time.Second < 61 * time.Second) ∧
      (sendMessage
          (stubClientAfter (61 * time.Second) "3EB0A1" { Timestamp := 0, ID := "XYZ" } none)
          "15551234567" "hi").2 =
        Completion.returns (61 * time.Second) none := by
  decide

/-- C5 (amended): for every client, `jid` and `text`, `sendMessage` invokes the client's send
operation exactly once, under the context `context.WithTimeout(context.Background(),
60*time.Second)`, whose timeout is exactly 60 seconds, and waits for that call without a
deadline of its own: when the send returns, `sendMessage` returns at that moment with the
error of the send unchanged (a timeout error if that is what the client reports, nil if the
client reports success, however late), and when the send never returns, `sendMessage` never
returns. -/
theorem sendMessage_deadline_delegated (client : whatsmeow.Client) (jid : String)
    (text : String) :
    sends (sendMessage client jid text).1 =
        [(context.Context.WithTimeout context.Context.Background (60 * time.Second),
          types.NewJID jid "s.whatsapp.net",
          { Conversation := some text, ExtendedTextMessage := none, ImageMessage := none })] ∧
      (60 * time.Second : time.Duration) = 60000000000 ∧
      (sendMessage client jid text).2 =
        match client.SendMessage
          (context.Context.WithTimeout context.Context.Background (60 * time.Second))
          (types.NewJID jid "s.whatsapp.net")
          { Conversation := some text, ExtendedTextMessage := none, ImageMessage := none } with
        | Completion.returns elapsed result => Completion.returns elapsed result.2
        | Completion.blocks => Completion.blocks := by
  have e : (60 * time.Second : time.Duration) = 60000000000 := by decide
  rw [e]
  exact ⟨(sendMessage_effects client jid text).1, rfl, sendMessage_completion client jid text⟩

/-! ## The event relay: claims C6, C7, C8 and C10 -/

/-- C6: for every Message event whose body is the plain text `t`, a non-empty conversation,
from a sender whose string form is `s`, `handleReceivedMessage` writes exactly one line,
`Received message from s: t`. -/
theorem handleReceivedMessage_plain_text (jidString : types.JID → String)
    (message : events.Message) (t : String)
    (hbody : waProto.Message.GetConversation message.Message = t) (ht : t ≠ "") :
    handleReceivedMessage jidString message =
      [Effect.stdout ("Received message from " ++ jidString message.Info.Sender ++ ": " ++ t ++
        "\n")] := by
  subst hbody
  unfold handleReceivedMessage
  simp only [if_pos ht]

/-- Witness for C6: the body "hello" from the sender "1234@server" is logged as
`Received message from 1234@server: hello`. -/
theorem handleReceivedMessage_plain_text_witness :
    "hello" ≠ "" ∧
      handleReceivedMessage userAtServer
          { Info := { Sender := types.NewJID "1234" "server" },
            Message := some { Conversation := some "hello" } } =
        [Effect.stdout "Received message from 1234@server: hello\n"] :=
  ⟨by decide,
    (handleReceivedMessage_plain_text userAtServer
      { Info := { Sender := types.NewJID "1234" "server" },
        Message := some { Conversation := some "hello" } } "hello" rfl (by decide)).trans
      (by decide)⟩

/-- C7, as the claim states it, fails: an extended text body "hello" from "1234@server" is
logged as `Received extended text message from 1234@server: hello`, not with the format of
the plain-text line. -/
theorem handleReceivedMessage_extended_not_plain_format :
    handleReceivedMessage userAtServer
        { Info := { Sender := types.NewJID "1234" "server" },
          Message := some { ExtendedTextMessage := some { Text := some "hello" } } } =
        [Effect.stdout "Received extended text message from 1234@server: hello\n"] ∧
      handleReceivedMessage userAtServer
        { Info := { Sender := types.NewJID "1234" "server" },
          Message := some { ExtendedTextMessage := some { Text := some "hello" } } } ≠
        [Effect.stdout "Received message from 1234@server: hello\n"] := by
  decide

/-- C7 (amended): for every Message event whose body is an extended text message with text
`t`, and no plain text, from a sender whose string form is `s`, `handleReceivedMessage`
writes exactly one line, `Received extended text message from s: t`. -/
theorem handleReceivedMessage_extended_text (jidString : types.JID → String)
    (message : events.Message) (ext : waProto.ExtendedTextMessage) (t : String)
    (hplain : waProto.Message.GetConversation message.Message = "")
    (hext : waProto.Message.GetExtendedTextMessage message.Message = some ext)
    (ht : waProto.ExtendedTextMessage.GetText (some ext) = t) :
    handleReceivedMessage jidString message =
      [Effect.stdout ("Received extended text message from " ++
        jidString message.Info.Sender ++ ": " ++ t ++ "\n")] := by
  subst ht
  unfold handleReceivedMessage
  simp [hplain, hext]

/-- Witness for C7 (amended): the extended text "hello" from the sender "1234@server". -/
theorem handleReceivedMessage_extended_text_witness :
    handleReceivedMessage userAtServer
        { Info := { Sender := types.NewJID "1234" "server" },
          Message := some { ExtendedTextMessage := some { Text := some "hello" } } } =
      [Effect.stdout "Received extended text message from 1234@server: hello\n"] :=
  (handleReceivedMessage_extended_text userAtServer
    { Info := { Sender := types.NewJID "1234" "server" },
      Message := some { ExtendedTextMessage := some { Text := some "hello" } } }
    { Text := some "hello" } "hello" rfl rfl rfl).trans (by decide)

/-- C8: for every Message event from a sender whose string form is `s` and whose body is
neither plain text nor extended text, `handleReceivedMessage` writes the line
`Received a message from s, but could not determine its type` and nothing else. -/
theorem handleReceivedMessage_undetermined (jidString : types.JID → String)
    (message : events.Message)
    (hplain : waProto.Message.GetConversation message.Message = "")
    (hext : waProto.Message.GetExtendedTextMessage message.Message = none) :
    handleReceivedMessage jidString message =
      [Effect.stdout ("Received a message from " ++ jidString message.Info.Sender ++
        ", but could not determine its type\n")] := by
  unfold handleReceivedMessage
  simp [hplain, hext]

/-- Witness for C8: an image message from the sender "1234@server". -/
theorem handleReceivedMessage_undetermined_witness :
    handleReceivedMessage userAtServer
        { Info := { Sender := types.NewJID "1234" "server" },
          Message := some { ImageMessage := some { Caption := some "a photo" } } } =
      [Effect.stdout "Received a message from 1234@server, but could not determine its type\n"] :=
  (handleReceivedMessage_undetermined userAtServer
    { Info := { Sender := types.NewJID "1234" "server" },
      Message := some { ImageMessage := some { Caption := some "a photo" } } } rfl rfl).trans
    (by decide)

/-- C10: for every Message event `handleReceivedMessage` writes exactly one line, chosen by
strict precedence: the plain-text line if and only if the conversation string is non-empty;
the extended-text line if and only if the conversation string is empty and an extended text
body is present; the "could not determine its type" line if and only if neither holds.
Hence a message with a non-empty plain text and an extended text body logs only the
plain-text line, and a message whose plain text is the empty string, or whose body is nil,
with no extended text logs the "could not determine its type" line. -/
theorem handleReceivedMessage_precedence (jidString : types.JID → String)
    (message : events.Message) :
    (∃ line : String, handleReceivedMessage jidString message = [Effect.stdout line]) ∧
      (handleReceivedMessage jidString message =
          [Effect.stdout (plainTextLine (jidString message.Info.Sender)
            (waProto.Message.GetConversation message.Message))] ↔
        waProto.Message.GetConversation message.Message ≠ "") ∧
      (handleReceivedMessage jidString message =
          [Effect.stdout (extendedTextLine (jidString message.Info.Sender)
            (waProto.ExtendedTextMessage.GetText
              (waProto.Message.GetExtendedTextMessage message.Message)))] ↔
        waProto.Message.GetConversation message.Message = "" ∧
          waProto.Message.GetExtendedTextMessage message.Message ≠ none) ∧
      (handleReceivedMessage jidString message =
          [Effect.stdout (undeterminedLine (jidString message.Info.Sender))] ↔
        waProto.Message.GetConversation message.Message = "" ∧
          waProto.Message.GetExtendedTextMessage message.Message = none) ∧
      (∀ (m : waProto.Message) (c : String) (ext : waProto.ExtendedTextMessage),
        message.Message = some m → m.Conversation = some c → c ≠ "" →
        m.ExtendedTextMessage = some ext →
        handleReceivedMessage jidString message =
          [Effect.stdout (plainTextLine (jidString message.Info.Sender) c)]) ∧
      (∀ m : waProto.Message,
        message.Message = some m → m.Conversation = some "" → m.ExtendedTextMessage = none →
        handleReceivedMessage jidString message =
          [Effect.stdout (undeterminedLine (jidString message.Info.Sender))]) ∧
      (message.Message = none →
        handleReceivedMessage jidString message =
          [Effect.stdout (undeterminedLine (jidString message.Info.Sender))]) := by
  have heq := handleReceivedMessage_eq jidString message
  refine ⟨⟨_, heq⟩, ?_, ?_, ?_, ?_, ?_, ?_⟩
  · rw [heq]
    by_cases hc : waProto.Message.GetConversation message.Message = ""
    · by_cases he : waProto.Message.GetExtendedTextMessage message.Message = none
      · simp [hc, he, (plainTextLine_ne_undeterminedLine _ _ _).symm]
      · simp [hc, he, (plainTextLine_ne_extendedTextLine _ _ _ _).symm]
    · simp [hc]
  · rw [heq]
    by_cases hc : waProto.Message.GetConversation message.Message = ""
    · by_cases he : waProto.Message.GetExtendedTextMessage message.Message = none
      · simp [hc, he, (extendedTextLine_ne_undeterminedLine _ _ _).symm]
      · simp [hc, he]
    · simp [hc, plainTextLine_ne_extendedTextLine]
  · rw [heq]
    by_cases hc : waProto.Message.GetConversation message.Message = ""
    · by_cases he : waProto.Message.GetExtendedTextMessage message.Message = none
      · simp [hc, he]
      · simp [hc, he, extendedTextLine_ne_undeterminedLine]
    · simp [hc, plainTextLine_ne_undeterminedLine]
  · intro m c ext hm hconv hc _
    have hget : waProto.Message.GetConversation message.Message = c := by
      rw [hm]; simp [waProto.Message.GetConversation, hconv]
    rw [heq, hget]
    simp [hc]
  · intro m hm hconv hext
    have hget : waProto.Message.GetConversation message.Message = "" := by
      rw [hm]; simp [waProto.Message.GetConversation, hconv]
    have hget2 : waProto.Message.GetExtendedTextMessage message.Message = none := by
      rw [hm]; simp [waProto.Message.GetExtendedTextMessage, hext]
    rw [heq]
    simp [hget, hget2]
  · intro hm
    rw [heq, hm]
    simp [waProto.Message.GetConversation, waProto.Message.GetExtendedTextMessage]

/-! ## The pre-generated message id: claim C9 -/

/-- C9: the message id that `sendMessage` pre-generates is unused in the send call. For every
client, `jid` and `text` and any two values `id₁`, `id₂` of the pre-generated id: the send
operation is invoked with the same arguments (the 60-second context, the recipient built from
`jid`, the plain-text payload), the returned error is the same, and every effect other than
the writes to standard output is the same; the only write to standard output is the success
line `Message sent, ID: ` followed by the pre-generated id, written exactly when the send
succeeds. The response of the send, its message id included, is discarded: replacing it
changes nothing. -/
theorem sendMessage_generated_id_unused (client : whatsmeow.Client) (jid : String)
    (text : String) (id₁ id₂ : types.MessageID)
    (f : whatsmeow.SendResponse → whatsmeow.SendResponse) :
    sends (sendMessage (withGeneratedID client id₁) jid text).1 =
        [(context.Context.WithTimeout context.Context.Background 60000000000,
          types.NewJID jid "s.whatsapp.net",
          { Conversation := some text, ExtendedTextMessage := none, ImageMessage := none })] ∧
      sends (sendMessage (withGeneratedID client id₁) jid text).1 =
        sends (sendMessage (withGeneratedID client id₂) jid text).1 ∧
      (sendMessage (withGeneratedID client id₁) jid text).2 =
        (sendMessage (withGeneratedID client id₂) jid text).2 ∧
      withoutStdout (sendMessage (withGeneratedID client id₁) jid text).1 =
        withoutStdout (sendMessage (withGeneratedID client id₂) jid text).1 ∧
      stdouts (sendMessage (withGeneratedID client id₁) jid text).1 =
        (match (sendMessage (withGeneratedID client id₁) jid text).2 with
        | Completion.returns _ none => ["Message sent, ID: " ++ id₁ ++ "\n"]
        | _ => []) ∧
      sendMessage (withResponse client f) jid text = sendMessage client jid text := by
  have e1 : sendOutcome (withGeneratedID client id₁) jid text = sendOutcome client jid text :=
    rfl
  have e2 : sendOutcome (withGeneratedID client id₂) jid text = sendOutcome client jid text :=
    rfl
  have e3 : sendOutcome (withResponse client f) jid text =
      match sendOutcome client jid text with
      | Completion.returns elapsed result => Completion.returns elapsed (f result.1, result.2)
      | Completion.blocks => Completion.blocks := rfl
  refine ⟨(sendMessage_effects _ jid text).1, ?_, ?_, ?_, ?_, ?_⟩
  · rw [(sendMessage_effects _ jid text).1, (sendMessage_effects _ jid text).1]
  · rw [sendMessage_completion, sendMessage_completion, e1, e2]
  · rw [sendMessage_eq, sendMessage_eq, e1, e2]
    cases sendOutcome client jid text with
    | blocks => rfl
    | returns elapsed result =>
      obtain ⟨resp, err⟩ := result
      cases err <;> rfl
  · rw [sendMessage_eq, e1]
    cases sendOutcome client jid text with
    | blocks => rfl
    | returns elapsed result =>
      obtain ⟨resp, err⟩ := result
      cases err <;> simp [stdouts, withGeneratedID]
  · rw [sendMessage_eq, sendMessage_eq, e3]
    cases sendOutcome client jid text with
    | blocks => rfl
    | returns elapsed result =>
      obtain ⟨resp, err⟩ := result
      cases err <;> rfl

end Whatsapp
